import Mathlib

/-!
Shallow embedding of the recognBOT job-queue and pipeline-orchestration core
(`app/bot.py`, `app/tasks.py`, `app/processing.py`, `app/config.py`).

Modelling conventions:
* The Redis store (`recognbot:queue` list plus per-job metadata hashes) is a
  `Store`: an ordered list of job ids and an association list from job id to
  `JobMeta`.  Redis `RPUSH`, `LREM key 0 v`, `LINDEX key 0`, `LPOS`, `HSET`,
  `DEL` become the corresponding pure list operations.
* Python floats holding media timestamps are modelled as exact rationals `ℚ`;
  `int(x)` is truncation toward zero (`pyInt`), Python `round` is
  round-half-to-even (`pyRound`), Python `//` and `%` on ints are `Int`
  division and modulus (both floor-based for positive divisors).
* Fallible external calls (Telegram, ffmpeg, Whisper) are oracles supplying
  an `Except String` outcome per call; sending a status message is modelled
  by `_send_status`, which records the delivery outcome but never fails,
  exactly like the `try/except` wrapper in the source.
-/

namespace RecognBot

/-- Metadata hash written by `enqueue_job` (`tasks.py`). -/
structure JobMeta where
  chat_id : ℤ
  file_name : String
  enqueued_at : ℤ
deriving DecidableEq

/-- The shared Redis state: the `recognbot:queue` list and the
`recognbot:queue:meta:<id>` hashes, as an association list. -/
structure Store where
  queue : List String
  meta : List (String × JobMeta)
deriving DecidableEq

/-- Redis `HSET` on the metadata map: set key `k` to `v`, replacing any
previous binding. -/
def hset (m : List (String × JobMeta)) (k : String) (v : JobMeta) :
    List (String × JobMeta) :=
  (k, v) :: m.filter (fun p => p.1 ≠ k)

/-- Redis `HGETALL`-style lookup of the metadata hash for key `k`. -/
def hget (m : List (String × JobMeta)) (k : String) : Option JobMeta :=
  (m.find? (fun p => p.1 = k)).map (·.2)

/-- Redis `DEL` of the metadata hash for key `k` (a no-op when absent). -/
def hdel (m : List (String × JobMeta)) (k : String) :
    List (String × JobMeta) :=
  m.filter (fun p => p.1 ≠ k)

/-- `enqueue_job` (`tasks.py` lines 40-52): `RPUSH` the job id onto the queue
list (the reply is the new list length, reported as the 1-based position) and
`HSET` its metadata hash. -/
def enqueue_job (st : Store) (job_id : String) (chat_id : ℤ)
    (file_name : Option String) (now : ℤ) : Store × ℕ :=
  let q := st.queue ++ [job_id]
  ({ queue := q,
     meta := hset st.meta job_id
       { chat_id := chat_id, file_name := file_name.getD "", enqueued_at := now } },
   q.length)

/-- `_remove_job` (`tasks.py` lines 55-60): `LREM queue 0 job_id` (count `0`
removes every element equal to `job_id`) followed by `DEL` of the metadata
hash. -/
def remove_job (st : Store) (job_id : String) : Store :=
  { queue := st.queue.filter (fun x => x ≠ job_id),
    meta := hdel st.meta job_id }

/-- Throttling state carried across iterations of `_wait_for_turn`'s polling
loop: `last_notified` timestamp and `last_position`. -/
structure WaitNotifyState where
  last_notified : ℚ
  last_position : Option ℤ
deriving DecidableEq

/-- Whether one polling iteration returned (job at queue head) or keeps
waiting. -/
inductive WaitRes
  | done
  | waiting
deriving DecidableEq

/-- Result of one polling iteration of `_wait_for_turn`. -/
structure WaitStepOut where
  store : Store
  ns : WaitNotifyState
  res : WaitRes
  notified : Option ℤ
deriving DecidableEq

/-- One iteration of the `while True` polling loop of `_wait_for_turn`
(`tasks.py` lines 70-99): return when `LINDEX queue 0` equals the job id;
otherwise look the id up with `LPOS` and, when it is absent, `RPUSH` it back
onto the tail (self-healing) before recomputing the position; finally send a
throttled queue-position status message when the displayed position changed
or `QUEUE_NOTIFY_INTERVAL = 30` seconds elapsed since the last one. -/
def waitStep (st : Store) (job_id : String) (ns : WaitNotifyState) (now : ℚ) :
    WaitStepOut :=
  if st.queue.head? = some job_id then
    { store := st, ns := ns, res := WaitRes.done, notified := none }
  else
    let st1 : Store :=
      if st.queue.contains job_id then st
      else { st with queue := st.queue ++ [job_id] }
    match st1.queue.findIdx? (fun x => x = job_id) with
    | none => { store := st1, ns := ns, res := WaitRes.waiting, notified := none }
    | some pos =>
      let position_display : ℤ := (pos : ℤ) + 1
      if some position_display ≠ ns.last_position ∨ ns.last_notified + 30 ≤ now then
        { store := st1,
          ns := { last_notified := now, last_position := some position_display },
          res := WaitRes.waiting, notified := some position_display }
      else
        { store := st1, ns := ns, res := WaitRes.waiting, notified := none }

/-- The empty shared store. -/
def store0 : Store := { queue := [], meta := [] }

/-- The specification's reading of `remove`: delete only the *first*
occurrence of the job id from the list (later occurrences remain), and delete
the metadata hash. -/
def remove_first_spec (st : Store) (job_id : String) : Store :=
  { queue := st.queue.erase job_id, meta := hdel st.meta job_id }

/-! ## Gateway (`bot.py`) -/

/-- `config.SUPPORTED_EXTENSIONS`. -/
def SUPPORTED_EXTENSIONS : List String := [".mp4", ".mov", ".mkv", ".avi"]

/-- The final path component (the part after the last `/`). -/
def lastComponent (cs : List Char) : List Char :=
  (cs.reverse.takeWhile (fun c => c ≠ '/')).reverse

/-- `pathlib.Path(p).suffix`: the extension of the final path component,
including the dot, provided the last dot is interior to the name. -/
def pathSuffix (p : String) : String :=
  let cs := lastComponent p.toList
  match ((List.range cs.length).filter (fun i => cs.getD i ' ' = '.')).getLast? with
  | some i => if 0 < i ∧ i + 1 < cs.length then String.mk (cs.drop i) else ""
  | none => ""

/-- Python `str.lower`, character-wise. -/
def lowerStr (s : String) : String := String.mk (s.toList.map Char.toLower)

/-- `_is_supported` (`bot.py` lines 15-18): `False` for a missing or empty
filename, else membership of the lower-cased suffix in
`SUPPORTED_EXTENSIONS`. -/
def is_supported (filename : Option String) : Bool :=
  match filename with
  | none => false
  | some f => if f = "" then false
      else SUPPORTED_EXTENSIONS.contains (lowerStr (pathSuffix f))

/-- Truthiness of an optional Python string (`if file_name:`). -/
def truthyStr : Option String → Bool
  | none => false
  | some s => s ≠ ""

/-- A Telegram attachment as `handle_video` inspects it. -/
structure Attachment where
  file_id : Option String
  file_name : Option String
deriving DecidableEq

/-- A dynamically-typed Python value, used to model the positional arguments
passed to `process_video.delay`. -/
inductive PyVal
  | int (n : ℤ)
  | str (s : String)
  | pynone
deriving DecidableEq

/-- Lift an optional string to a Python value. -/
def optStrToPy : Option String → PyVal
  | none => PyVal.pynone
  | some s => PyVal.str s

/-- What `handle_video` did: the (unchanged) shared store, the reply texts
sent to the chat (abbreviated English tokens for the Russian originals), and
the positional argument list of the `process_video.delay` call, if any. -/
structure GatewayOut where
  store : Store
  replies : List String
  dispatch : Option (List PyVal)
deriving DecidableEq

/-- `handle_video` (`bot.py` lines 27-59): validate the attachment, reply,
and dispatch `process_video.delay(message.chat_id, file_id, file_name)`.
Note that the gateway performs no operation on the queue store. -/
def handle_video (st : Store) (chat_id : ℤ) (attachment : Option Attachment) :
    GatewayOut :=
  match attachment with
  | none => { store := st, replies := ["could not get file"], dispatch := none }
  | some att =>
    if truthyStr att.file_name && !(is_supported att.file_name) then
      { store := st, replies := ["unsupported format"], dispatch := none }
    else if !(truthyStr att.file_id) then
      { store := st, replies := ["could not get video"], dispatch := none }
    else
      { store := st, replies := ["video accepted"],
        dispatch := some [PyVal.int chat_id, optStrToPy att.file_id,
                          optStrToPy att.file_name] }

/-- The parameters of the Celery task
`process_video(self, job_id, chat_id, file_id, file_name=None)`
(`tasks.py` lines 109-112). -/
structure TaskCall where
  job_id : PyVal
  chat_id : PyVal
  file_id : PyVal
  file_name : PyVal
deriving DecidableEq

/-- Positional binding of a `process_video.delay(...)` argument list against
the task signature, `file_name` defaulting to `None`. -/
def bindProcessVideoArgs : List PyVal → Option TaskCall
  | [a, b, c] => some { job_id := a, chat_id := b, file_id := c, file_name := PyVal.pynone }
  | [a, b, c, d] => some { job_id := a, chat_id := b, file_id := c, file_name := d }
  | _ => none

/-! ## Transcript aggregation and rendering (`processing.py`)

Timestamps are exact rationals standing for the Python floats. -/

/-- Python `str.strip()` whitespace (ASCII). -/
def isPySpace (c : Char) : Bool :=
  c = ' ' ∨ c = '\t' ∨ c = '\n' ∨ c = '\r' ∨ c = '\x0b' ∨ c = '\x0c'

/-- Python `str.strip()`, character-wise. -/
def pyStrip (s : String) : String :=
  String.mk (((s.toList.dropWhile isPySpace).reverse.dropWhile isPySpace).reverse)

/-- `Segment` (`processing.py` lines 17-21); the field `stop` models the
source field `end`, which is a Lean keyword. -/
@[ext]
structure Segment where
  start : ℚ
  stop : ℚ
  text : String
deriving DecidableEq

/-- One audio chunk as the pipeline sees it: its duration in seconds
(`len(AudioSegment.from_file(chunk)) / 1000`) and the segments the
recognition engine returns for it, relative to the chunk's own timeline. -/
structure ChunkResult where
  duration : ℚ
  segs : List Segment
deriving DecidableEq

/-- The loop of `transcribe_chunks` (`processing.py` lines 106-125): append
each engine segment shifted by the running offset, then advance the offset by
the chunk's duration. -/
def transcribeGo : List ChunkResult → ℚ → List Segment
  | [], _ => []
  | c :: rest, off =>
    c.segs.map (fun s =>
      { start := s.start + off, stop := s.stop + off, text := pyStrip s.text })
      ++ transcribeGo rest (off + c.duration)

/-- `transcribe_chunks` (`processing.py` lines 95-125): aggregate all chunks
starting from offset `0.0` (the empty chunk list returns `[]`). -/
def transcribe_chunks (chunks : List ChunkResult) : List Segment :=
  transcribeGo chunks 0

/-- The exact cumulative duration of the first `k` chunks. -/
def cumDur (chunks : List ChunkResult) (k : ℕ) : ℚ :=
  ((chunks.take k).map (fun c => c.duration)).sum

/-- The specification's description of aggregation: the segments of chunk
`k` (0-based) are shifted by the cumulative duration of all prior chunks and
appended in chunk order. -/
def transcribe_chunks_spec (chunks : List ChunkResult) : List Segment :=
  (chunks.mapIdx (fun k c =>
    c.segs.map (fun s =>
      { start := s.start + cumDur chunks k, stop := s.stop + cumDur chunks k,
        text := pyStrip s.text }))).flatten

/-- Shift a segment's endpoints by `off`. -/
def offsetSeg (off : ℚ) (s : Segment) : Segment :=
  { start := s.start + off, stop := s.stop + off, text := s.text }

/-- Python `int(q)` for a float: truncation toward zero. -/
def pyInt (q : ℚ) : ℤ := if 0 ≤ q then ⌊q⌋ else -⌊-q⌋

/-- Python `round(q)` for a float: round half to even. -/
def pyRound (q : ℚ) : ℤ :=
  if q - ⌊q⌋ < 1/2 then ⌊q⌋
  else if (1 : ℚ)/2 < q - ⌊q⌋ then ⌊q⌋ + 1
  else if ⌊q⌋ % 2 = 0 then ⌊q⌋ else ⌊q⌋ + 1

/-- Python `f"{n:02d}"` formatting. -/
def pad2 (n : ℤ) : String :=
  if 0 ≤ n ∧ n < 10 then "0" ++ toString n else toString n

/-- Python `f"{n:03d}"` formatting. -/
def pad3 (n : ℤ) : String :=
  if 0 ≤ n ∧ n < 10 then "00" ++ toString n
  else if 0 ≤ n ∧ n < 100 then "0" ++ toString n
  else toString n

/-- `_format_timestamp` (`processing.py` lines 79-84): truncate the seconds
to an integer and render `HH:MM:SS` (Python `//` and `%` are `Int` division
and modulus). -/
def format_timestamp (seconds : ℚ) : String :=
  let total_seconds := pyInt seconds
  let hours := total_seconds / 3600
  let minutes := (total_seconds % 3600) / 60
  let secs := total_seconds % 60
  pad2 hours ++ ":" ++ pad2 minutes ++ ":" ++ pad2 secs

/-- `_format_srt_timestamp` (`processing.py` lines 87-92): round the seconds
to milliseconds and render `HH:MM:SS,mmm` via the `divmod` chain. -/
def format_srt_timestamp (seconds : ℚ) : String :=
  let millis := pyRound (seconds * 1000)
  let hours := millis / 3600000
  let r1 := millis % 3600000
  let minutes := r1 / 60000
  let r2 := r1 % 60000
  let secs := r2 / 1000
  let ms := r2 % 1000
  pad2 hours ++ ":" ++ pad2 minutes ++ ":" ++ pad2 secs ++ "," ++ pad3 ms

/-- `write_transcription_txt` (`processing.py` lines 128-133) as the file
content it writes: one line per segment. -/
def write_transcription_txt : List Segment → String
  | [] => ""
  | seg :: rest =>
    "[" ++ format_timestamp seg.start ++ " - " ++ format_timestamp seg.stop ++ "] "
      ++ seg.text ++ "\n" ++ write_transcription_txt rest

/-- The cue-block loop of `write_srt` (`processing.py` lines 136-143),
carrying the 1-based cue index. -/
def srtBlocks : ℕ → List Segment → String
  | _, [] => ""
  | index, seg :: rest =>
    toString index ++ "\n"
      ++ format_srt_timestamp seg.start ++ " --> " ++ format_srt_timestamp seg.stop ++ "\n"
      ++ seg.text ++ "\n\n" ++ srtBlocks (index + 1) rest

/-- `write_srt` as the file content it writes, cues numbered from 1. -/
def write_srt (segments : List Segment) : String := srtBlocks 1 segments

/-- The specification's plain-text line for one segment:
`"[HH:MM:SS - HH:MM:SS] text"`. -/
def txt_line_spec (s : Segment) : String :=
  "[" ++ format_timestamp s.start ++ " - " ++ format_timestamp s.stop ++ "] " ++ s.text

/-- The specification's plain-text rendering: one such line per segment. -/
def write_txt_spec (segments : List Segment) : String :=
  (segments.map (fun s => txt_line_spec s ++ "\n")).foldr (fun a b => a ++ b) ""

/-- The specification's subtitle cue block for index `i`: the index line, the
`start --> end` timestamp line, the text, and a terminating blank line. -/
def cue_block_spec (index : ℕ) (s : Segment) : String :=
  toString index ++ "\n" ++ format_srt_timestamp s.start ++ " --> "
    ++ format_srt_timestamp s.stop ++ "\n" ++ s.text ++ "\n\n"

/-- The specification's subtitle rendering: sequential 1-based cue blocks. -/
def write_srt_spec (segments : List Segment) : String :=
  (segments.mapIdx (fun i s => cue_block_spec (i + 1) s)).foldr (fun a b => a ++ b) ""

/-! ## Transcription progress callback (`tasks.py` lines 159-173)

`int(35 * done / total)` truncates the nonnegative quotient, i.e. takes its
floor, modelled by natural division. -/

/-- `_on_transcribe_progress` acting on the mutable cell
`progress_state["last_percent"]`: returns whether a status notification was
emitted and the new value of the cell. -/
def on_transcribe_progress (total : ℕ) (last_percent : ℤ) (done : ℕ) :
    Bool × ℤ :=
  if total ≤ 0 then (false, last_percent)
  else
    let percent : ℤ := min ((45 : ℤ) + ((35 * done) / total : ℕ)) 80
    if 10 ≤ percent - last_percent ∨ done = total then (true, percent)
    else (false, last_percent)

/-- One iteration of the transcription loop as seen by the callback: extend
the emission log and thread the `last_percent` cell. -/
def progressStep (total : ℕ) (acc : List (ℕ × ℤ) × ℤ) (done : ℕ) :
    List (ℕ × ℤ) × ℤ :=
  let r := on_transcribe_progress total acc.2 done
  (if r.1 then acc.1 ++ [(done, r.2)] else acc.1, r.2)

/-- All `(done, percent)` notifications emitted while transcribing `total`
chunks: `transcribe_chunks` invokes the callback with `done = 1, …, total`,
and `progress_state` starts at the 40% checkpoint. -/
def progressRun (total : ℕ) : List (ℕ × ℤ) :=
  ((List.range' 1 total).foldl (progressStep total) ([], 40)).1

/-- The specification's percentage formula
`min(80, 45 + floor(35 * done / total))`. -/
def spec_percent (total done : ℕ) : ℤ :=
  min 80 (45 + ⌊(35 * done : ℚ) / (total : ℚ)⌋)

/-- The specification's emission rule, walking the chunk indices while
carrying the percent of the last emission: emit exactly when the percent
advanced by at least 10 since then, or on the final chunk. -/
def specTraceAux (total : ℕ) : List ℕ → ℤ → List (ℕ × ℤ)
  | [], _ => []
  | done :: rest, lastEmitted =>
    if lastEmitted + 10 ≤ spec_percent total done ∨ done = total then
      (done, spec_percent total done) :: specTraceAux total rest (spec_percent total done)
    else specTraceAux total rest lastEmitted

/-- The specification's notification trace, starting from the 40%
checkpoint. -/
def specTrace (total : ℕ) : List (ℕ × ℤ) :=
  specTraceAux total (List.range' 1 total) 40

/-! ## Pipeline executor (`tasks.py` lines 109-225)

One Celery execution of `process_video` is a *body* (the `try` block) run
under an unconditional `finally` that removes the job from the queue and
deletes the working directory.  External effects that can raise —
`_wait_for_turn`'s store access, `download_video`, `extract_audio`,
`split_audio`, the Whisper invocation, and the two `bot.send_document`
calls — are supplied by a `StageOracle`.  The delivery outcome of each
`bot.send_message` inside `_send_status` is supplied by `sendOk`; the
source wraps those calls in `try/except`, so they never raise. -/

/-- Observable message traffic of one job. -/
inductive Event
  | statusMsg (text : String) (delivered : Bool)
  | document (name : String)
  | delay30
  | failureMsg (reason : String) (delivered : Bool)
deriving DecidableEq

/-- State threaded through one execution of `process_video`: the shared
store, the set of existing working directories, the event log, and the index
of the next `send_message` call (feeding `sendOk`). -/
structure RunS where
  store : Store
  fs : List String
  events : List Event
  sendIx : ℕ
deriving DecidableEq

/-- `_send_status` (`tasks.py` lines 63-67): attempt the delivery, record the
outcome, never raise. -/
def send_status (sendOk : ℕ → Bool) (text : String) (s : RunS) : RunS :=
  { s with events := s.events ++ [Event.statusMsg text (sendOk s.sendIx)],
           sendIx := s.sendIx + 1 }

/-- The throttled queue-position statuses of `_wait_for_turn` and the
progress statuses of the transcription stage, emitted in a batch. -/
def sendProgressStatuses (sendOk : ℕ → Bool) (total : ℕ) (s : RunS) : RunS :=
  let ems := progressRun total
  { s with
    events := s.events ++ ems.mapIdx (fun k e =>
      Event.statusMsg ("step 4/5 transcribing " ++ toString e.2 ++ " percent, parts "
        ++ toString e.1 ++ " of " ++ toString total) (sendOk (s.sendIx + k))),
    sendIx := s.sendIx + ems.length }

/-- `clean_workdir` (`processing.py` lines 146-148): delete the directory if
it exists. -/
def clean_workdir (fs : List String) (path : String) : List String :=
  if fs.contains path then fs.filter (fun p => p ≠ path) else fs

/-- The net effect of `_wait_for_turn` on the store for its own job id: the
loop only ever `RPUSH`es the id back when it vanished from the list
(self-healing); it ends with the id at the head. -/
def waitSelfHeal (st : Store) (job_id : String) : Store :=
  if st.queue.contains job_id then st
  else { st with queue := st.queue ++ [job_id] }

/-- Outcomes of the fallible external calls of one pipeline attempt. -/
structure StageOracle where
  waitTurn : Except String Unit
  download : Except String Unit
  extract : Except String Unit
  split : Except String (List ChunkResult)
  transcribeErr : Option String
  sendTxtDoc : Except String Unit
  sendSrtDoc : Except String Unit

/-- The `try` block of `process_video` (`tasks.py` lines 124-215): wait for
the turn, then download → extract → split → transcribe → write artifacts →
deliver documents, emitting the checkpoint statuses in source order and
aborting at the first raising call. -/
def processVideoBody (o : StageOracle) (sendOk : ℕ → Bool) (job_id : String)
    (work_dir : String) (enable_srt : Bool) (s : RunS) :
    RunS × Except String Unit :=
  match o.waitTurn with
  | Except.error e => (s, Except.error e)
  | Except.ok _ =>
    let s := { s with store := waitSelfHeal s.store job_id }
    let s := send_status sendOk "step 1/5 downloading video, 0 percent" s
    let s := { s with fs := if s.fs.contains work_dir then s.fs else s.fs ++ [work_dir] }
    match o.download with
    | Except.error e => (s, Except.error e)
    | Except.ok _ =>
      let s := send_status sendOk "step 2/5 extracting audio, 25 percent" s
      match o.extract with
      | Except.error e => (s, Except.error e)
      | Except.ok _ =>
        match o.split with
        | Except.error e => (s, Except.error e)
        | Except.ok chunks =>
          let s := send_status sendOk
            ("step 3/5 audio split into " ++ toString chunks.length
              ++ " parts, 40 percent") s
          match o.transcribeErr with
          | some e => (s, Except.error e)
          | none =>
            let _segments := transcribe_chunks chunks
            let s := sendProgressStatuses sendOk chunks.length s
            let s := send_status sendOk "step 4/5 writing result files, 85 percent" s
            match o.sendTxtDoc with
            | Except.error e => (s, Except.error e)
            | Except.ok _ =>
              let s := { s with events := s.events ++ [Event.document "transcription.txt"] }
              if enable_srt then
                match o.sendSrtDoc with
                | Except.error e => (s, Except.error e)
                | Except.ok _ =>
                  let s := { s with events := s.events ++ [Event.document "transcription.srt"] }
                  let s := send_status sendOk "done, step 5/5, 100 percent" s
                  (s, Except.ok ())
              else
                let s := send_status sendOk "done, step 5/5, 100 percent" s
                (s, Except.ok ())

/-- The `finally` clause of `process_video` (`tasks.py` lines 223-225): run
the body, then unconditionally `_remove_job(job_id)` and
`clean_workdir(work_dir)`, preserving the body's outcome. -/
def tryFinallyCleanup (body : RunS → RunS × Except String Unit) (s : RunS)
    (job_id : String) (work_dir : String) : RunS × Except String Unit :=
  let r := body s
  ({ r.1 with store := remove_job r.1.store job_id,
              fs := clean_workdir r.1.fs work_dir }, r.2)

/-- One Celery execution of `process_video`: its `try` body under the
unconditional cleanup. -/
def process_video_attempt (o : StageOracle) (sendOk : ℕ → Bool)
    (job_id : String) (work_dir : String) (enable_srt : Bool) (s : RunS) :
    RunS × Except String Unit :=
  tryFinallyCleanup (processVideoBody o sendOk job_id work_dir enable_srt)
    s job_id work_dir

/-- The `except` clause of `process_video` (`tasks.py` lines 216-222) over
Celery's retry semantics: `run r` is the outcome of the execution with
`self.request.retries = r`.  A failure with fewer than 2 recorded retries
re-raises `self.retry(countdown=30, max_retries=2)`; otherwise the failure
notification is sent (`_send_failure` never raises; `failSendOk` is its
delivery outcome) and the error re-raised.  Returns the event trace and the
error propagated to the hosting framework, if any. -/
def retryDriver (run : ℕ → Except String Unit) (failSendOk : Bool) (r : ℕ) :
    List Event × Option String :=
  match run r with
  | Except.ok _ => ([], none)
  | Except.error e =>
    if _h : 2 ≤ r then ([Event.failureMsg e failSendOk], some e)
    else
      let rest := retryDriver run failSendOk (r + 1)
      (Event.delay30 :: rest.1, rest.2)
termination_by 3 - r
decreasing_by omega

/-- A sample metadata record. -/
def metaA : JobMeta := { chat_id := 1, file_name := "a.mp4", enqueued_at := 0 }

/-- Initial throttling state of `_wait_for_turn` (`last_notified = 0.0`,
`last_position = None`). -/
def ns0 : WaitNotifyState := { last_notified := 0, last_position := none }

/-- An accepted upload as the gateway sees it. -/
def acceptedUpload : Option Attachment :=
  some { file_id := some "F", file_name := some "a.mp4" }

/-- An oracle where every external call succeeds except the delivery of the
transcript document. -/
def oracleTxtFail (e : String) : StageOracle :=
  { waitTurn := Except.ok (), download := Except.ok (), extract := Except.ok (),
    split := Except.ok [], transcribeErr := none,
    sendTxtDoc := Except.error e, sendSrtDoc := Except.ok () }

/-! ## Helper lemmas -/

theorem hget_hdel (m : List (String × JobMeta)) (k : String) :
    hget (hdel m k) k = none := by
  induction m with
  | nil => rfl
  | cons a m ih =>
    by_cases h : a.1 = k
    · simp only [hdel, List.filter_cons, h]
      simpa [hdel] using ih
    · simp only [hdel, List.filter_cons, h]
      rw [show (decide ¬a.1 = k) = true by simp [h]]
      simp only [if_true]
      rw [show hget (a :: List.filter (fun p => decide ¬p.1 = k) m) k
            = hget (List.filter (fun p => decide ¬p.1 = k) m) k by
        simp [hget, List.find?_cons, h]]
      exact ih

theorem tryFinallyCleanup_clean (body : RunS → RunS × Except String Unit)
    (s : RunS) (j wd : String) :
    j ∉ (tryFinallyCleanup body s j wd).1.store.queue
    ∧ hget (tryFinallyCleanup body s j wd).1.store.meta j = none
    ∧ wd ∉ (tryFinallyCleanup body s j wd).1.fs := by
  unfold tryFinallyCleanup
  refine ⟨?_, ?_, ?_⟩
  · simp [remove_job, List.mem_filter]
  · simp [remove_job, hget_hdel]
  · simp only [clean_workdir]
    split
    · simp [List.mem_filter]
    · next h => simpa using h

theorem waitStep_res_eq (st : Store) (j : String) (ns : WaitNotifyState)
    (now : ℚ) :
    (waitStep st j ns now).res =
      if st.queue.head? = some j then WaitRes.done else WaitRes.waiting := by
  by_cases hh : st.queue.head? = some j
  · simp [waitStep, hh]
  · simp only [waitStep, hh, if_false, reduceIte]
    split
    · rfl
    · split <;> rfl

theorem waitStep_reinserts (st : Store) (j : String) (ns : WaitNotifyState)
    (now : ℚ) (h : j ∉ st.queue) :
    (waitStep st j ns now).store.queue = st.queue ++ [j]
    ∧ (waitStep st j ns now).res = WaitRes.waiting
    ∧ (waitStep st j ns now).store.queue.findIdx? (fun x => x = j)
        = some st.queue.length := by
  have hh : st.queue.head? ≠ some j := by
    intro hc
    exact h (List.mem_of_mem_head? (by rw [hc]; rfl))
  have hcont : st.queue.contains j = false := by simpa using h
  have hfind : (st.queue ++ [j]).findIdx? (fun x => x = j)
      = some st.queue.length := by
    rw [List.findIdx?_append]
    rw [show st.queue.findIdx? (fun x => decide (x = j)) = none from
      List.findIdx?_eq_none_iff.mpr (fun x hx => by
        simp only [decide_eq_false_iff_not]
        intro he; exact h (he ▸ hx))]
    simp [List.findIdx?_cons]
  refine ⟨?_, ?_, ?_⟩
  · simp only [waitStep, hh, if_false, reduceIte, hcont, Bool.false_eq_true]
    split <;> (try split) <;> rfl
  · rw [waitStep_res_eq]; simp [hh]
  · have hq : (waitStep st j ns now).store.queue = st.queue ++ [j] := by
      simp only [waitStep, hh, if_false, reduceIte, hcont, Bool.false_eq_true]
      split <;> (try split) <;> rfl
    rw [hq]; exact hfind

theorem retryDriver_delivery_invariant (run : ℕ → Except String Unit)
    (b1 b2 : Bool) :
    ∀ n r : ℕ, 3 - r ≤ n →
      (retryDriver run b1 r).2 = (retryDriver run b2 r).2 := by
  intro n
  induction n with
  | zero =>
    intro r hr
    have h2 : 2 ≤ r := by omega
    conv_lhs => rw [retryDriver]
    conv_rhs => rw [retryDriver]
    cases hrun : run r <;> simp [hrun, h2]
  | succ n ih =>
    intro r hr
    conv_lhs => rw [retryDriver]
    conv_rhs => rw [retryDriver]
    cases hrun : run r with
    | ok u => simp
    | error e =>
      by_cases h2 : 2 ≤ r
      · simp [h2]
      · simpa [h2] using ih (r + 1) (by omega)

/-! ## Claim theorems -/

/-- Claim C1 (code bug): the gateway accepts the upload (replying and
dispatching `process_video.delay(chat_id, file_id, file_name)`) yet performs
no operation on the queue store — `enqueue_job` is never called, so the job
is not enqueued and has no metadata when the worker enters `_wait_for_turn`;
moreover the three positional arguments bind against the four-parameter task
so that the chat id becomes the `job_id` and the file name is lost, while
`enqueue_job` itself would have returned the 1-based position (the new list
length). -/
theorem c1_gateway_dispatches_without_enqueue :
    (handle_video store0 42 acceptedUpload).store = store0
    ∧ (handle_video store0 42 acceptedUpload).dispatch =
        some [PyVal.int 42, PyVal.str "F", PyVal.str "a.mp4"]
    ∧ bindProcessVideoArgs [PyVal.int 42, PyVal.str "F", PyVal.str "a.mp4"] =
        some { job_id := PyVal.int 42, chat_id := PyVal.str "F",
               file_id := PyVal.str "a.mp4", file_name := PyVal.pynone }
    ∧ hget store0.meta "42" = none ∧ store0.queue = []
    ∧ ∀ (st : Store) (j : String) (c : ℤ) (fn : Option String) (t : ℤ),
        (enqueue_job st j c fn t).2 = st.queue.length + 1 := by
  refine ⟨by decide, by decide, by decide, by decide, by decide, ?_⟩
  intro st j c fn t
  simp [enqueue_job]

/-- Claim C2 counterexample: on the queue `["a", "b", "a"]`, `_remove_job`
(Redis `LREM` with count 0) deletes *both* occurrences of `"a"`, whereas the
claim mandates that only the first be removed, leaving `["b", "a"]`. -/
theorem c2_counterexample :
    (remove_job { queue := ["a", "b", "a"], meta := [("a", metaA)] } "a").queue
      = ["b"]
    ∧ (remove_first_spec { queue := ["a", "b", "a"], meta := [("a", metaA)] } "a").queue
      = ["b", "a"]
    ∧ (["b"] : List String) ≠ ["b", "a"] := by
  decide

/-- Claim C2 (amended): `_remove_job` removes *every* occurrence of the job
id from the queue list and deletes its metadata; on a list not containing the
id only the metadata deletion remains (a no-op on the list), and the
operation is idempotent, so a second call is a no-op. -/
theorem c2_remove_all_occurrences (st : Store) (j : String) :
    (remove_job st j).queue = st.queue.filter (fun x => x ≠ j)
    ∧ j ∉ (remove_job st j).queue
    ∧ hget (remove_job st j).meta j = none
    ∧ (j ∉ st.queue → (remove_job st j).queue = st.queue)
    ∧ remove_job (remove_job st j) j = remove_job st j := by
  refine ⟨rfl, ?_, ?_, ?_, ?_⟩
  · simp [remove_job, List.mem_filter]
  · simp [remove_job, hget_hdel]
  · intro h
    simp only [remove_job]
    exact List.filter_eq_self.mpr (fun a ha => by
      simp only [decide_eq_true_eq]
      intro he; exact h (he ▸ ha))
  · simp [remove_job, hdel, List.filter_filter]

/-- Witness for the amended C2 at a concrete input: removing an absent id
leaves the queue list unchanged. -/
theorem c2_witness :
    (remove_job { queue := ["b"], meta := [] } "x").queue = ["b"] :=
  (c2_remove_all_occurrences { queue := ["b"], meta := [] } "x").2.2.2.1
    (by decide)

/-- Claim C3 counterexample: after `_remove_job` has deleted both the list
entry and the metadata of `"A"`, one poll of `_wait_for_turn("A")` still
re-appends `"A"` to the tail of the queue list — the self-healing reinsertion
never consults the metadata, contradicting the claim that the id is
reinserted only when its metadata is present and that after `remove` the
lookup reports absent without reinsertion. -/
theorem c3_counterexample :
    hget (remove_job { queue := ["A", "B"], meta := [("A", metaA)] } "A").meta "A"
      = none
    ∧ "A" ∉ (remove_job { queue := ["A", "B"], meta := [("A", metaA)] } "A").queue
    ∧ (waitStep (remove_job { queue := ["A", "B"], meta := [("A", metaA)] } "A")
        "A" ns0 0).store.queue = ["B", "A"] := by
  decide

/-- Claim C3 (amended): whenever the job id is absent from the queue list —
regardless of whether its metadata hash still exists — the next poll of
`_wait_for_turn` re-appends the id to the tail (list length + 1), keeps
waiting, and the position lookup then finds it at the defined index
`length`; in particular a poll after `remove(id)` reinserts the id. -/
theorem c3_self_heal_ignores_meta (st : Store) (j : String)
    (ns : WaitNotifyState) (now : ℚ) (h : j ∉ st.queue) :
    (waitStep st j ns now).store.queue = st.queue ++ [j]
    ∧ (waitStep st j ns now).res = WaitRes.waiting
    ∧ (waitStep st j ns now).store.queue.findIdx? (fun x => x = j)
        = some st.queue.length :=
  waitStep_reinserts st j ns now h

/-- Witness for the amended C3 at a concrete input. -/
theorem c3_witness :
    (waitStep { queue := ["B"], meta := [] } "A" ns0 0).store.queue
      = ["B"] ++ ["A"]
    ∧ (waitStep { queue := ["B"], meta := [] } "A" ns0 0).res = WaitRes.waiting
    ∧ (waitStep { queue := ["B"], meta := [] } "A" ns0 0).store.queue.findIdx?
        (fun x => x = "A") = some 1 :=
  c3_self_heal_ignores_meta { queue := ["B"], meta := [] } "A" ns0 0 (by decide)

/-- Claim C6: one poll of `_wait_for_turn` returns exactly when the job id is
at index 0 of the queue list (`LINDEX queue 0`); in particular, for a queue
`[A, B, C]` with `A ≠ C`, polling for `C` keeps waiting while `A` and `B` are
still ahead. -/
theorem c6_waitForTurn_head_gate (st : Store) (j : String)
    (ns : WaitNotifyState) (now : ℚ) :
    ((waitStep st j ns now).res = WaitRes.done ↔ st.queue.head? = some j)
    ∧ ∀ A B C : String, A ≠ C →
        (waitStep { queue := [A, B, C], meta := st.meta } C ns now).res
          = WaitRes.waiting := by
  constructor
  · rw [waitStep_res_eq]
    split
    · next hh => simp [hh]
    · next hh => simp [hh]
  · intro A B C hAC
    rw [waitStep_res_eq]
    simp [hAC]

/-- Witness for C6 at a concrete queue. -/
theorem c6_witness :
    (waitStep { queue := ["A", "B", "C"], meta := [] } "C" ns0 0).res
      = WaitRes.waiting :=
  (c6_waitForTurn_head_gate { queue := ["A", "B", "C"], meta := [] } "C" ns0 0).2
    "A" "B" "C" (by decide)

/-- Claim C4: whole-pipeline retry with `max_retries = 2` and a fixed 30 s
countdown.  If all three executions fail, the trace holds exactly the two
30-second delays (the first two failures are silent) followed by one failure
notification carrying the final error's description, and that error is
re-raised to the hosting framework; if some execution among the first three
succeeds after the earlier ones failed, nothing is re-raised and no failure
notification appears in the trace. -/
theorem c4_retry_policy (run : ℕ → Except String Unit) (fOk : Bool) :
    (∀ e0 e1 e2 : String, run 0 = Except.error e0 → run 1 = Except.error e1 →
        run 2 = Except.error e2 →
        retryDriver run fOk 0 =
          ([Event.delay30, Event.delay30, Event.failureMsg e2 fOk], some e2))
    ∧ (∀ k : ℕ, k ≤ 2 → run k = Except.ok () →
        (∀ i, i < k → run i ≠ Except.ok ()) →
        (retryDriver run fOk 0).2 = none
        ∧ ∀ e b, Event.failureMsg e b ∉ (retryDriver run fOk 0).1) := by
  constructor
  · intro e0 e1 e2 h0 h1 h2
    rw [retryDriver, h0]
    rw [retryDriver, h1]
    rw [retryDriver, h2]
    simp
  · intro k hk hok hfail
    interval_cases k
    · rw [retryDriver, hok]
      exact ⟨rfl, by simp⟩
    · rcases hr0 : run 0 with e0 | u
      · rw [retryDriver, hr0]
        rw [retryDriver, hok]
        exact ⟨rfl, by simp⟩
      · exact absurd (by cases u; exact hr0) (hfail 0 (by omega))
    · rcases hr0 : run 0 with e0 | u
      · rcases hr1 : run 1 with e1 | u
        · rw [retryDriver, hr0]
          rw [retryDriver, hr1]
          rw [retryDriver, hok]
          exact ⟨rfl, by simp⟩
        · exact absurd (by cases u; exact hr1) (hfail 1 (by omega))
      · exact absurd (by cases u; exact hr0) (hfail 0 (by omega))

/-- Witness for C4: with every execution failing with `"boom"`, the driver
emits two delays, one failure notification, and re-raises. -/
theorem c4_witness :
    retryDriver (fun _ => Except.error "boom") true 0 =
      ([Event.delay30, Event.delay30, Event.failureMsg "boom" true],
       some "boom") :=
  (c4_retry_policy (fun _ => Except.error "boom") true).1 "boom" "boom" "boom"
    rfl rfl rfl

/-- Claim C5: the `finally` clause of `process_video` removes the job id from
the queue list, deletes its metadata, and deletes the per-job working
directory on *every* exit of the body — stated for an arbitrary body (so for
success, any stage failure, or an error raised before the first stage) and,
in particular, for the actual pipeline body under any oracle. -/
theorem c5_unconditional_cleanup (body : RunS → RunS × Except String Unit)
    (o : StageOracle) (sendOk : ℕ → Bool) (esrt : Bool)
    (s : RunS) (j wd : String) :
    (j ∉ (tryFinallyCleanup body s j wd).1.store.queue
      ∧ hget (tryFinallyCleanup body s j wd).1.store.meta j = none
      ∧ wd ∉ (tryFinallyCleanup body s j wd).1.fs)
    ∧ (j ∉ (process_video_attempt o sendOk j wd esrt s).1.store.queue
      ∧ hget (process_video_attempt o sendOk j wd esrt s).1.store.meta j = none
      ∧ wd ∉ (process_video_attempt o sendOk j wd esrt s).1.fs) :=
  ⟨tryFinallyCleanup_clean body s j wd,
   tryFinallyCleanup_clean (processVideoBody o sendOk j wd esrt) s j wd⟩

/-- Claim C10: the delivery outcome of the `try/except`-wrapped
`bot.send_message` calls (status, queue position, failure notification) never
influences the shared store, the file system, the attempt's outcome, or the
error propagated by the retry driver — only the `bot.send_document` result
deliveries can fail an attempt, as the last conjunct shows for the transcript
document. -/
theorem c10_status_send_failures_harmless (o : StageOracle) (j wd : String)
    (esrt : Bool) (s : RunS) (ok1 ok2 : ℕ → Bool)
    (run : ℕ → Except String Unit) (b1 b2 : Bool) (r : ℕ) (e : String) :
    ((process_video_attempt o ok1 j wd esrt s).1.store
        = (process_video_attempt o ok2 j wd esrt s).1.store
      ∧ (process_video_attempt o ok1 j wd esrt s).1.fs
        = (process_video_attempt o ok2 j wd esrt s).1.fs
      ∧ (process_video_attempt o ok1 j wd esrt s).2
        = (process_video_attempt o ok2 j wd esrt s).2)
    ∧ (retryDriver run b1 r).2 = (retryDriver run b2 r).2
    ∧ (process_video_attempt (oracleTxtFail e) ok1 j wd esrt s).2
        = Except.error e := by
  refine ⟨?_, retryDriver_delivery_invariant run b1 b2 (3 - r) r le_rfl, rfl⟩
  obtain ⟨w, d, ex, sp, tr, stx, ssr⟩ := o
  cases w <;> cases d <;> cases ex <;> cases sp <;> cases tr <;> cases stx <;>
    cases ssr <;> cases esrt <;> exact ⟨rfl, rfl, rfl⟩

theorem percent_cast_eq (total done : ℕ) :
    min ((45 : ℤ) + ((35 * done) / total : ℕ)) 80 = spec_percent total done := by
  unfold spec_percent
  rw [min_comm]
  congr 1
  have hc : ((35 * done : ℕ) : ℚ) = (35 * done : ℚ) := by push_cast; ring
  rw [show ⌊(35 * done : ℚ) / (total : ℚ)⌋ = ((35 * done : ℕ) / total : ℕ) from by
    rw [← hc, Rat.floor_natCast_div_natCast]
    exact (Int.natCast_div _ _).symm]

theorem on_progress_eq (total : ℕ) (ht : 0 < total) (last : ℤ) (done : ℕ) :
    on_transcribe_progress total last done =
      if last + 10 ≤ spec_percent total done ∨ done = total
      then (true, spec_percent total done) else (false, last) := by
  have hg : ¬ total ≤ 0 := by omega
  have hiff : (10 ≤ spec_percent total done - last ∨ done = total)
      ↔ (last + 10 ≤ spec_percent total done ∨ done = total) := by omega
  simp only [on_transcribe_progress, hg, if_false, reduceIte, percent_cast_eq]
  rw [if_congr hiff rfl rfl]

theorem progress_aux (total : ℕ) (ht : 0 < total) :
    ∀ (l : List ℕ) (acc : List (ℕ × ℤ)) (last : ℤ),
      (l.foldl (progressStep total) (acc, last)).1
        = acc ++ specTraceAux total l last := by
  intro l
  induction l with
  | nil => intro acc last; simp [specTraceAux]
  | cons done rest ih =>
    intro acc last
    rw [List.foldl_cons]
    by_cases hc : last + 10 ≤ spec_percent total done ∨ done = total
    · rw [show progressStep total (acc, last) done
          = (acc ++ [(done, spec_percent total done)], spec_percent total done) from by
        simp [progressStep, on_progress_eq total ht, hc]]
      rw [ih]
      simp [specTraceAux, hc]
    · rw [show progressStep total (acc, last) done = (acc, last) from by
        simp [progressStep, on_progress_eq total ht, hc]]
      rw [ih]
      simp [specTraceAux, hc]

/-- Claim C8: the notification trace of the transcription progress callback,
run over `done = 1, …, total` from the 40% checkpoint, is exactly the
specification's: percent is `min(80, 45 + floor(35 * done / total))`, and a
notification is emitted exactly when that percent advanced by at least 10
over the percent of the last emission (40 before the first) or when
`done = total`, and never otherwise. -/
theorem c8_progress_trace_equals_spec :
    ∀ total : ℕ, progressRun total = specTrace total := by
  intro total
  rcases Nat.eq_zero_or_pos total with h | h
  · subst h; rfl
  · unfold progressRun specTrace
    rw [progress_aux total h]
    simp

theorem cumDur_zero (chunks : List ChunkResult) : cumDur chunks 0 = 0 := by
  simp [cumDur]

theorem cumDur_cons (c : ChunkResult) (l : List ChunkResult) (k : ℕ) :
    cumDur (c :: l) (k + 1) = c.duration + cumDur l k := by
  simp [cumDur, List.take_succ_cons]

theorem map_mapIdx_comm {α β γ : Type} (h : β → γ) (g : ℕ → α → β)
    (l : List α) :
    (l.mapIdx g).map h = l.mapIdx (fun i a => h (g i a)) := by
  simp only [List.mapIdx_eq_enum_map, List.map_map]
  rfl

theorem mapIdx_congr_fun {α β : Type} (f g : ℕ → α → β) (l : List α)
    (h : ∀ i a, f i a = g i a) : l.mapIdx f = l.mapIdx g := by
  have hfg : f = g := funext (fun i => funext (h i))
  rw [hfg]

theorem transcribe_spec_cons (c : ChunkResult) (rest : List ChunkResult) :
    transcribe_chunks_spec (c :: rest)
      = c.segs.map (fun s =>
          { start := s.start + 0, stop := s.stop + 0, text := pyStrip s.text })
        ++ (transcribe_chunks_spec rest).map (offsetSeg c.duration) := by
  unfold transcribe_chunks_spec
  rw [List.mapIdx_cons, List.flatten_cons]
  rw [List.map_flatten, map_mapIdx_comm]
  congr 1
  congr 1
  apply mapIdx_congr_fun
  intro i c'
  rw [List.map_map]
  apply List.map_congr_left
  intro s _
  simp only [Function.comp_apply, offsetSeg, cumDur_cons]
  apply Segment.ext
  · dsimp only; ring
  · dsimp only; ring
  · rfl

theorem transcribeGo_eq (chunks : List ChunkResult) :
    ∀ off : ℚ,
      transcribeGo chunks off = (transcribe_chunks_spec chunks).map (offsetSeg off) := by
  induction chunks with
  | nil => intro off; rfl
  | cons c rest ih =>
    intro off
    rw [transcribe_spec_cons, List.map_append]
    show c.segs.map (fun s =>
        { start := s.start + off, stop := s.stop + off, text := pyStrip s.text })
      ++ transcribeGo rest (off + c.duration) = _
    congr 1
    · rw [List.map_map]
      apply List.map_congr_left
      intro s _
      simp only [Function.comp_apply, offsetSeg]
      apply Segment.ext
      · dsimp only; ring
      · dsimp only; ring
      · rfl
    · rw [ih (off + c.duration), List.map_map]
      apply List.map_congr_left
      intro s _
      simp only [Function.comp_apply, offsetSeg]
      apply Segment.ext
      · dsimp only; ring
      · dsimp only; ring
      · rfl

theorem offsetSeg_zero (s : Segment) : offsetSeg 0 s = s := by
  cases s; simp [offsetSeg]

/-- Claim C7: `transcribe_chunks` equals the specification's aggregation —
the segments of chunk `k` are shifted by exactly the cumulative duration of
chunks `1 .. k-1` (no offset on chunk 1) and appended in chunk order — and on
the spec's concrete example (chunk 1 of duration 300 s yielding `(0, 2, a)`,
chunk 2 yielding `(1, 3, b)`) produces `[(0, 2, a), (301, 303, b)]`. -/
theorem c7_transcription_offsets :
    (∀ chunks : List ChunkResult,
        transcribe_chunks chunks = transcribe_chunks_spec chunks)
    ∧ transcribe_chunks
        [{ duration := 300, segs := [{ start := 0, stop := 2, text := "a" }] },
         { duration := 300, segs := [{ start := 1, stop := 3, text := "b" }] }]
      = [{ start := 0, stop := 2, text := "a" },
         { start := 301, stop := 303, text := "b" }] := by
  constructor
  · intro chunks
    calc transcribe_chunks chunks
        = (transcribe_chunks_spec chunks).map (offsetSeg 0) := transcribeGo_eq chunks 0
      _ = (transcribe_chunks_spec chunks).map id :=
          List.map_congr_left (fun a _ => offsetSeg_zero a)
      _ = transcribe_chunks_spec chunks := List.map_id _
  · have ha : pyStrip "a" = "a" := rfl
    have hb : pyStrip "b" = "b" := rfl
    simp [transcribe_chunks, transcribeGo, ha, hb]
    norm_num

theorem write_txt_eq_spec (segments : List Segment) :
    write_transcription_txt segments = write_txt_spec segments := by
  induction segments with
  | nil => rfl
  | cons seg rest ih =>
    simp only [write_transcription_txt, write_txt_spec, List.map_cons,
      List.foldr_cons, txt_line_spec]
    rw [ih]
    simp only [write_txt_spec]
    simp [String.append_assoc, txt_line_spec]

theorem srtBlocks_eq (segments : List Segment) :
    ∀ n : ℕ, srtBlocks n segments
      = (segments.mapIdx (fun i s => cue_block_spec (n + i) s)).foldr
          (fun a b => a ++ b) "" := by
  induction segments with
  | nil => intro n; rfl
  | cons seg rest ih =>
    intro n
    rw [List.mapIdx_cons, List.foldr_cons]
    have harg : (fun (i : ℕ) (s : Segment) => cue_block_spec (n + (i + 1)) s)
        = fun i s => cue_block_spec (n + 1 + i) s := by
      funext i s
      congr 1
      omega
    simp only [harg]
    rw [← ih (n + 1)]
    simp only [srtBlocks, cue_block_spec, Nat.add_zero]

/-- Claim C9: the plain-text renderer emits one `"[HH:MM:SS - HH:MM:SS] text"`
line per segment with components obtained by truncating the seconds, the
subtitle renderer emits sequential 1-based `"HH:MM:SS,mmm"` cue blocks with
rounded milliseconds, each terminated by a blank line; on the segment
`(65.9, 70.0, hi)` they produce exactly the spec's example strings. -/
theorem c9_renderers :
    (∀ segments, write_transcription_txt segments = write_txt_spec segments)
    ∧ (∀ segments, write_srt segments = write_srt_spec segments)
    ∧ write_transcription_txt [{ start := 659/10, stop := 70, text := "hi" }]
        = "[00:01:05 - 00:01:10] hi\n"
    ∧ write_srt [{ start := 659/10, stop := 70, text := "hi" }]
        = "1\n00:01:05,900 --> 00:01:10,000\nhi\n\n" := by
  have hts1 : format_timestamp ((659 : ℚ)/10) = "00:01:05" := by
    have h : pyInt ((659 : ℚ)/10) = 65 := by norm_num [pyInt]
    simp only [format_timestamp, h]
    decide
  have hts2 : format_timestamp ((70 : ℚ)) = "00:01:10" := by
    have h : pyInt ((70 : ℚ)) = 70 := by norm_num [pyInt]
    simp only [format_timestamp, h]
    decide
  have hsrt1 : format_srt_timestamp ((659 : ℚ)/10) = "00:01:05,900" := by
    have h : pyRound ((659 : ℚ)/10 * 1000) = 65900 := by norm_num [pyRound]
    simp only [format_srt_timestamp, h]
    decide
  have hsrt2 : format_srt_timestamp ((70 : ℚ)) = "00:01:10,000" := by
    have h : pyRound ((70 : ℚ) * 1000) = 70000 := by norm_num [pyRound]
    simp only [format_srt_timestamp, h]
    decide
  refine ⟨write_txt_eq_spec, ?_, ?_, ?_⟩
  · intro segments
    rw [write_srt, srtBlocks_eq, write_srt_spec]
    congr 1
    apply mapIdx_congr_fun
    intro i s
    congr 1
    omega
  · simp only [write_transcription_txt, hts1, hts2]
    decide
  · simp only [write_srt, srtBlocks, hsrt1, hsrt2]
    decide

end RecognBot
